import Mathlib

/-!
Verification of the transformation-job pipeline in `src/routes.ts`.

The handler registered on `POST /api/obfuscate` is embedded as a pure
function over an explicit filesystem state (`FS`), with the fallible
external effects (interpreter probing, `writeFile`, the subprocess, extra
deletion errors) supplied by oracles in an `Env` record.  The handler
additionally produces a trace of `Event`s recording which pipeline steps
ran and in which order, so that ordering and exactly-once properties can
be stated.
-/

namespace Avestix

/-- A filesystem: maps an absolute path to the contents of the file at
that path, `none` when no file exists there. -/
def FS : Type := String → Option String

/-- Model of `writeFile path content` : create or overwrite the file. -/
def fsWrite (fs : FS) (path content : String) : FS :=
  fun q => if q = path then some content else fs q

/-- Does a file exist at `path`? -/
def fsHas (fs : FS) (path : String) : Bool :=
  (fs path).isSome

/-- Model of the value found at `req.body.code`.  `strVal s` is a JS
string, `nonString truthy` any non-string JSON value together with its JS
truthiness, `missing` an absent field (`undefined`). -/
inductive CodeField
  | missing
  | strVal (s : String)
  | nonString (truthy : Bool)
deriving DecidableEq

/-- The guard `if (!code || typeof code !== "string")` from routes.ts:
the request is accepted exactly when `code` is a non-empty string
(a falsy value fails `!code`; a truthy non-string fails the typeof test). -/
def codeAccepted : CodeField → Bool
  | .strVal s => !(s = "")
  | .missing => false
  | .nonString _ => false

/-- The string carried by an accepted `code` field. -/
def codeText : CodeField → String
  | .strVal s => s
  | .missing => ""
  | .nonString _ => ""

/-- From routes.ts: `const VALID_PRESETS = ["Weak", "Medium", "Strong", "Maximum"]`,
ordered weakest to strongest. -/
def VALID_PRESETS : List String := ["Weak", "Medium", "Strong", "Maximum"]

/-- Tier normalization from routes.ts: the destructuring default
`preset = "Strong"` (for an absent field), then
`VALID_PRESETS.includes(preset) ? preset : "Strong"`.
A non-string preset value fails the `includes` test and is covered by the
else branch, like any string outside the list. -/
def validatedPreset (preset : Option String) : String :=
  let p := preset.getD "Strong"
  if VALID_PRESETS.contains p then p else "Strong"

/-- From routes.ts: `const PRESET_MAP = \x7b Weak: "Weak", Medium: "Medium",
Strong: "Strong", Maximum: "Strong" \x7d` as a partial lookup (`none` = key absent). -/
def PRESET_MAP : String → Option String := fun t =>
  if t = "Weak" then some "Weak"
  else if t = "Medium" then some "Medium"
  else if t = "Strong" then some "Strong"
  else if t = "Maximum" then some "Strong"
  else none

/-- The lookup `PRESET_MAP[validatedPreset] || "Strong"`. -/
def actualPresetOf (preset : Option String) : String :=
  (PRESET_MAP (validatedPreset preset)).getD "Strong"

/-- The path `join(TEMP_DIR, "input_" + fileId + ".lua")` with
`TEMP_DIR = join(process.cwd(), "temp")`. -/
def inputFileName (cwd fileId : String) : String :=
  cwd ++ "/temp/input_" ++ fileId ++ ".lua"

/-- The path `join(TEMP_DIR, "input_" + fileId + ".obfuscated.lua")`. -/
def outputFileName (cwd fileId : String) : String :=
  cwd ++ "/temp/input_" ++ fileId ++ ".obfuscated.lua"

/-- The shell command string built in routes.ts:
`cd "<cwd>/prometheus-obfuscator" && "<lua>" "<cli>" --preset <actual> "<input>"`
where `<cli> = join(process.cwd(), "prometheus-obfuscator", "cli.lua")`. -/
def buildCommand (cwd luaPath actualPreset inputFile : String) : String :=
  "cd \"" ++ cwd ++ "/prometheus-obfuscator\" && \"" ++ luaPath ++ "\" \""
    ++ cwd ++ "/prometheus-obfuscator/cli.lua\" --preset " ++ actualPreset
    ++ " \"" ++ inputFile ++ "\""

/-- The ordered candidate list probed by `findLuaPath`. -/
def luaCandidates : List String :=
  ["lua", "lua5.1", "/nix/store/mqbhz05llkddfb5wni0m48kw22ixxps4-lua-5.1.5/bin/lua"]

/-- The message of the error thrown when both discovery strategies fail. -/
def luaNotFoundMsg : String :=
  "Lua interpreter not found. Please ensure Lua 5.1 is installed."

/-- Oracles for one attempt at interpreter discovery: whether the
version probe `<path> -v` of each candidate exits successfully, and the
trimmed stdout of the fallback `find /nix/store ...` search (`none` when
that command itself fails). -/
structure ResolveEnv where
  probeOk : String → Bool
  searchOut : Option String

/-- Model of `findLuaPath` from routes.ts: try the ordered candidates with a
version probe, accept the first that succeeds; otherwise fall back to a
bounded filesystem search and accept a non-empty trimmed result;
otherwise throw. -/
def findLuaPath (renv : ResolveEnv) : Except String String :=
  match luaCandidates.find? renv.probeOk with
  | some p => .ok p
  | none =>
    match renv.searchOut with
    | some out => if out = "" then .error luaNotFoundMsg else .ok out
    | none => .error luaNotFoundMsg

/-- A filesystem error as seen by `mkdir`. -/
inductive FsError
  | alreadyExists
  | other (msg : String)
deriving DecidableEq

/-- Model of `ensureTempDir` from routes.ts, whose body is a `mkdir` of
TEMP_DIR (recursive) inside a try with an empty catch — whatever the outcome of the `mkdir`
call, the surrounding catch swallows the error and the function returns
normally. -/
def ensureTempDir (mkdirResult : Except FsError Unit) : Except FsError Unit :=
  match mkdirResult with
  | .ok _ => .ok ()
  | .error _ => .ok ()

/-- Outcome oracle for the `execAsync(command, ...)` subprocess call:
whether it completed within the bounds with exit code zero, what content
(if any) the external tool left at the output path by the time the call
returned, and the diagnostic text (`error.stderr || error.message`)
carried when it failed. -/
structure ExecOutcome where
  exitOk : Bool
  outWritten : Option String
  errMsg : String

/-- The process environment of one request: the working directory, the
interpreter-discovery oracles, whether `writeFile` succeeds (with its
diagnostic when not), the subprocess outcome, and a set of paths whose
deletion fails even though the file exists (e.g. a permission error). -/
structure Env where
  cwd : String
  resolveEnv : ResolveEnv
  writeOk : Bool
  writeErrMsg : String
  exec : ExecOutcome
  unlinkFails : String → Bool

/-- The diagnostic text of the `readFile(outputFile)` failure when the
output artifact is missing. -/
def readFailMsg : String := "ENOENT: no such file or directory"

/-- Trace events, in the order the handler can emit them. -/
inductive Event
  | normalized (tier : String)
  | resolveAttempt (ok : Bool)
  | writeAttempt (ok : Bool)
  | execCmd (cmd : String)
  | readOutput (ok : Bool)
  | release
  | unlinkAttempt (path : String) (ok : Bool)
deriving DecidableEq

/-- The JSON result sent to the caller: `res.json({success:true,
obfuscatedCode, preset})` or `res.status(st).json({success:false, error})`. -/
inductive JobResult
  | ok (obfuscatedCode : String) (preset : String)
  | err (status : Nat) (error : String)
deriving DecidableEq

/-- Everything observable when the handler returns: the response, the
final filesystem, the final interpreter cache, and the event trace. -/
structure HandlerOut where
  result : JobResult
  fs : FS
  cache : Option String
  events : List Event

/-- One `unlink(path)` call: it succeeds (returning the new filesystem)
iff the file exists and no extra deletion error is injected; otherwise it
throws (`none`) and the filesystem is unchanged. -/
def unlinkCall (env : Env) (fs : FS) (path : String) : Option FS :=
  if env.unlinkFails path then none
  else if fsHas fs path then some (fun q => if q = path then none else fs q)
  else none

/-- The cleanup block of routes.ts, executed on both the success path and
the catch path:
`try { await unlink(inputFile); await unlink(outputFile); } catch { }`.
If the first `unlink` throws, the second is never attempted; either way
the exception is swallowed. -/
def cleanup (env : Env) (fs : FS) (inP outP : String) : FS × List Event :=
  match unlinkCall env fs inP with
  | none => (fs, [Event.release, Event.unlinkAttempt inP false])
  | some fs1 =>
    match unlinkCall env fs1 outP with
    | none => (fs1, [Event.release, Event.unlinkAttempt inP true,
                     Event.unlinkAttempt outP false])
    | some fs2 => (fs2, [Event.release, Event.unlinkAttempt inP true,
                         Event.unlinkAttempt outP true])

/-- A request body: the `code` field and the `preset` field (`none` when
absent, in which case the destructuring default applies). -/
structure Request where
  code : CodeField
  preset : Option String
deriving DecidableEq

/-- The `try { ... } catch (error) { ... }` block of the handler, entered
after input validation, tier normalization and interpreter resolution,
with `lua` the resolved interpreter path and `cache` the cache value the
handler will leave behind. -/
def runJob (env : Env) (cache : Option String) (fs : FS) (fileId : String)
    (req : Request) (tier lua : String) (evs : List Event) : HandlerOut :=
  let inP := inputFileName env.cwd fileId
  let outP := outputFileName env.cwd fileId
  if env.writeOk then
    let fs1 := fsWrite fs inP (codeText req.code)
    let actual := (PRESET_MAP tier).getD "Strong"
    let cmd := buildCommand env.cwd lua actual inP
    let fs2 := match env.exec.outWritten with
      | some o => fsWrite fs1 outP o
      | none => fs1
    let evs2 := evs ++ [Event.writeAttempt true, Event.execCmd cmd]
    if env.exec.exitOk then
      match fs2 outP with
      | some obf =>
        let c := cleanup env fs2 inP outP
        { result := .ok obf tier, fs := c.1, cache := cache,
          events := evs2 ++ [Event.readOutput true] ++ c.2 }
      | none =>
        let c := cleanup env fs2 inP outP
        { result := .err 500 ("Obfuscation failed: " ++ readFailMsg),
          fs := c.1, cache := cache,
          events := evs2 ++ [Event.readOutput false] ++ c.2 }
    else
      let c := cleanup env fs2 inP outP
      { result := .err 500 ("Obfuscation failed: " ++ env.exec.errMsg),
        fs := c.1, cache := cache, events := evs2 ++ c.2 }
  else
    let c := cleanup env fs inP outP
    { result := .err 500 ("Obfuscation failed: " ++ env.writeErrMsg),
      fs := c.1, cache := cache,
      events := evs ++ [Event.writeAttempt false] ++ c.2 }

/-- The `POST /api/obfuscate` handler from routes.ts, as a function of
the environment, the current `cachedLuaPath` cache, the current
filesystem, the `randomUUID()` drawn for this request, and the request
body. -/
def handle (env : Env) (cache : Option String) (fs : FS) (fileId : String)
    (req : Request) : HandlerOut :=
  if codeAccepted req.code then
    let tier := validatedPreset req.preset
    let evs0 := [Event.normalized tier]
    match cache with
    | some lua => runJob env (some lua) fs fileId req tier lua evs0
    | none =>
      match findLuaPath env.resolveEnv with
      | .ok lua =>
          runJob env (some lua) fs fileId req tier lua
            (evs0 ++ [Event.resolveAttempt true])
      | .error msg =>
          { result := .err 500 msg, fs := fs, cache := none,
            events := evs0 ++ [Event.resolveAttempt false] }
  else
    { result := .err 400 "No code provided. Please enter Lua code to obfuscate.",
      fs := fs, cache := cache, events := [] }

/-- From routes.ts, `let cachedLuaPath: string | null = null` — the cache at process
start, before `registerRoutes` runs its startup probe. -/
def initialCache : Option String := none

/-- The startup probe in `registerRoutes`: populate the cache on success,
log a warning and leave it empty on failure. -/
def startupCache (renv : ResolveEnv) : Option String :=
  match findLuaPath renv with
  | .ok p => some p
  | .error _ => none

/-- Does a `JobResult` report success? -/
def JobResult.isOk : JobResult → Bool
  | .ok _ _ => true
  | .err _ _ => false

/-- Is this event an execution of the cleanup block? -/
def isReleaseEvent : Event → Bool
  | .release => true
  | _ => false

/-- Count of `release` events (executions of the cleanup block). -/
def releaseCount (evs : List Event) : Nat :=
  evs.countP isReleaseEvent

/-- Was resolution attempted in this trace? -/
def isResolveEvent : Event → Bool
  | .resolveAttempt _ => true
  | _ => false

/-- Was an input write attempted in this trace (workspace allocation)? -/
def isWriteEvent : Event → Bool
  | .writeAttempt _ => true
  | _ => false

/-- The subprocess command strings executed in a trace. -/
def execCmds (evs : List Event) : List String :=
  evs.filterMap (fun e => match e with | .execCmd c => some c | _ => none)

/-- Did this run find an interpreter (cached or freshly resolved)? -/
def interpreterAvailable (cache : Option String) (env : Env) : Bool :=
  cache.isSome || (findLuaPath env.resolveEnv).toOption.isSome

/-- Position of each event kind in the pipeline, used to state that every
trace is emitted in pipeline order. -/
def phase : Event → Nat
  | .normalized _ => 0
  | .resolveAttempt _ => 1
  | .writeAttempt _ => 2
  | .execCmd _ => 3
  | .readOutput _ => 4
  | .release => 5
  | .unlinkAttempt _ _ => 6

/-- The interpreter cache left after serving a sequence of requests, each
with its own environment, filesystem, job id and body, starting from
`cache`. -/
def runBatchCache (cache : Option String)
    (batch : List (Env × FS × String × Request)) : Option String :=
  batch.foldl (fun c item => (handle item.1 c item.2.1 item.2.2.1 item.2.2.2).cache)
    cache

/-- How many deletion attempts a trace records against `path`. -/
def unlinkAttemptsOn (path : String) (evs : List Event) : Nat :=
  evs.countP (fun e => match e with
    | .unlinkAttempt p _ => p == path
    | _ => false)

/-! ### Concrete fixtures used to instantiate universally quantified
theorems at sample inputs. -/

/-- An empty filesystem. -/
def fs0 : FS := fun _ => none

/-- A benign environment: interpreter probes fail (forcing the fallback
paths to be exercised through the cache), writes succeed, the subprocess
succeeds and writes `"obf"` to the output artifact, and no extra
deletion errors occur. -/
def env0 : Env :=
  { cwd := "/app", resolveEnv := { probeOk := fun _ => false, searchOut := none },
    writeOk := true, writeErrMsg := "disk full",
    exec := { exitOk := true, outWritten := some "obf", errMsg := "tool crashed" },
    unlinkFails := fun _ => false }

/-- Like `env0`, but deleting the input scratch file of job `job-6`
fails with an external error (e.g. permission denied). -/
def env1 : Env :=
  { cwd := "/app", resolveEnv := { probeOk := fun _ => false, searchOut := none },
    writeOk := true, writeErrMsg := "disk full",
    exec := { exitOk := true, outWritten := some "obf", errMsg := "tool crashed" },
    unlinkFails := fun q => q == inputFileName "/app" "job-6" }

/-- A resolver environment whose first candidate probe succeeds. -/
def renv1 : ResolveEnv := { probeOk := fun _ => true, searchOut := none }

/-! ## Helper lemmas -/

/-- A path just written exists. -/
theorem fsHas_write_self (fs : FS) (p c : String) :
    fsHas (fsWrite fs p c) p = true := by
  simp [fsHas, fsWrite]

/-- Writing anywhere preserves existence of an existing file. -/
theorem fsHas_write_mono (fs : FS) (p q c : String) (h : fsHas fs p = true) :
    fsHas (fsWrite fs q c) p = true := by
  simp only [fsHas, fsWrite]
  split
  · simp
  · exact h

/-- Reading a path other than the one just written sees the old value. -/
theorem fsWrite_other (fs : FS) (p q c : String) (h : p ≠ q) :
    fsWrite fs q c p = fs p := by
  simp [fsWrite, h]

/-- The input and output artifact paths of one job are always distinct
(the output name is strictly longer). -/
theorem input_ne_output (cwd fileId : String) :
    inputFileName cwd fileId ≠ outputFileName cwd fileId := by
  intro h
  have hl := congrArg String.length h
  simp only [inputFileName, outputFileName, String.length_append] at hl
  have e1 : (".lua" : String).length = 4 := rfl
  have e2 : (".obfuscated.lua" : String).length = 15 := rfl
  rw [e1, e2] at hl
  omega

/-- The three possible event lists of the cleanup block: the input unlink
is always attempted first; the output unlink is attempted exactly when
the input unlink succeeded. -/
theorem cleanup_shapes (env : Env) (fs : FS) (inP outP : String) :
    (cleanup env fs inP outP).2 = [Event.release, Event.unlinkAttempt inP false] ∨
    (cleanup env fs inP outP).2 =
      [Event.release, Event.unlinkAttempt inP true, Event.unlinkAttempt outP false] ∨
    (cleanup env fs inP outP).2 =
      [Event.release, Event.unlinkAttempt inP true, Event.unlinkAttempt outP true] := by
  unfold cleanup
  cases h1 : unlinkCall env fs inP with
  | none => simp
  | some fs1 =>
    cases h2 : unlinkCall env fs1 outP with
    | none => simp [h2]
    | some fs2 => simp [h2]

/-- Event bookkeeping facts about the cleanup block's trace. -/
theorem cleanup_tail_facts (env : Env) (fs : FS) (inP outP : String) :
    (cleanup env fs inP outP).2.countP isReleaseEvent = 1 ∧
    (cleanup env fs inP outP).2.countP isResolveEvent = 0 ∧
    (cleanup env fs inP outP).2.countP isWriteEvent = 0 ∧
    execCmds (cleanup env fs inP outP).2 = [] ∧
    (cleanup env fs inP outP).2.Pairwise (fun a b => phase a ≤ phase b) ∧
    (∀ e ∈ (cleanup env fs inP outP).2, 5 ≤ phase e) := by
  rcases cleanup_shapes env fs inP outP with h | h | h <;> rw [h] <;>
    simp [List.countP_cons, List.pairwise_cons, isReleaseEvent, isResolveEvent,
          isWriteEvent, execCmds, phase]

/-- If an `unlink` call fails even though no deletion error is injected
for its path, the file was absent. -/
theorem unlinkCall_none_absent (env : Env) (fs : FS) (p : String)
    (hf : env.unlinkFails p = false) (h : unlinkCall env fs p = none) :
    fsHas fs p = false := by
  simp only [unlinkCall, hf, Bool.false_eq_true, if_false] at h
  by_contra hc
  rw [Bool.not_eq_false] at hc
  rw [hc] at h
  simp at h

/-- A successful `unlink` call removes exactly its path. -/
theorem unlinkCall_some_eq (env : Env) (fs : FS) (p : String) (fs' : FS)
    (h : unlinkCall env fs p = some fs') :
    fs' = fun q => if q = p then none else fs q := by
  simp only [unlinkCall] at h
  split at h
  · simp at h
  · split at h
    · cases h; rfl
    · simp at h

/-- After the cleanup block, the input path is gone (absent or deleted),
and so is the output path, provided no external deletion error is
injected for either path and the output cannot be present while the
input is absent. -/
theorem cleanup_clean (env : Env) (fs : FS) (inP outP : String)
    (hfi : env.unlinkFails inP = false) (hfo : env.unlinkFails outP = false)
    (himp : fsHas fs inP = false → fsHas fs outP = false) :
    fsHas (cleanup env fs inP outP).1 inP = false ∧
    fsHas (cleanup env fs inP outP).1 outP = false := by
  unfold cleanup
  cases h1 : unlinkCall env fs inP with
  | none =>
    have habs := unlinkCall_none_absent env fs inP hfi h1
    exact ⟨habs, himp habs⟩
  | some fs1 =>
    have e1 := unlinkCall_some_eq env fs inP fs1 h1
    cases h2 : unlinkCall env fs1 outP with
    | none =>
      have habs2 := unlinkCall_none_absent env fs1 outP hfo h2
      simp only [h2]
      constructor
      · subst e1; simp [fsHas]
      · exact habs2
    | some fs2 =>
      have e2 := unlinkCall_some_eq env fs1 outP fs2 h2
      simp only [h2]
      constructor
      · subst e2; subst e1; simp [fsHas]
      · subst e2; simp [fsHas]

/-- The try/catch block never touches the interpreter cache. -/
theorem runJob_cache (env : Env) (cc : Option String) (fs : FS)
    (fileId : String) (req : Request) (tier lua : String) (evs : List Event) :
    (runJob env cc fs fileId req tier lua evs).cache = cc := by
  simp only [runJob]
  repeat' split
  all_goals rfl

/-- Gluing a middle segment (phases 2–4) onto a cleanup trace keeps the
combined tail phase-ordered, with no resolution attempt and exactly one
release. -/
theorem tail_build (mid : List Event) (env : Env) (fs : FS) (inP outP : String)
    (hmid : mid.Pairwise (fun a b => phase a ≤ phase b))
    (hmid2 : ∀ e ∈ mid, 2 ≤ phase e ∧ phase e ≤ 4)
    (hmidr : mid.countP isResolveEvent = 0)
    (hmidrel : mid.countP isReleaseEvent = 0) :
    (mid ++ (cleanup env fs inP outP).2).Pairwise (fun a b => phase a ≤ phase b) ∧
    (∀ e ∈ mid ++ (cleanup env fs inP outP).2, 2 ≤ phase e) ∧
    (mid ++ (cleanup env fs inP outP).2).countP isResolveEvent = 0 ∧
    (mid ++ (cleanup env fs inP outP).2).countP isReleaseEvent = 1 := by
  obtain ⟨c1, c2, _, _, c5, c6⟩ := cleanup_tail_facts env fs inP outP
  refine ⟨?_, ?_, ?_, ?_⟩
  · rw [List.pairwise_append]
    refine ⟨hmid, c5, fun a ha b hb => ?_⟩
    have h4 := (hmid2 a ha).2
    have h5 := c6 b hb
    omega
  · intro e he
    rcases List.mem_append.mp he with h | h
    · exact (hmid2 e h).1
    · have := c6 e h; omega
  · rw [List.countP_append, hmidr, c2]
  · rw [List.countP_append, hmidrel, c1]

/-- Anatomy of the try/catch block's event trace: it extends `evs` with
a tail of phase-ordered events from the allocation stage onward,
containing no resolution attempt and exactly one release. -/
theorem runJob_tail (env : Env) (cc : Option String) (fs : FS)
    (fileId : String) (req : Request) (tier lua : String) (evs : List Event) :
    ∃ tail, (runJob env cc fs fileId req tier lua evs).events = evs ++ tail ∧
      tail.Pairwise (fun a b => phase a ≤ phase b) ∧
      (∀ e ∈ tail, 2 ≤ phase e) ∧
      tail.countP isResolveEvent = 0 ∧
      tail.countP isReleaseEvent = 1 := by
  simp only [runJob]
  by_cases hw : env.writeOk = true
  · rw [if_pos hw]
    set inP := inputFileName env.cwd fileId with hin
    set outP := outputFileName env.cwd fileId with hout
    set cmd := buildCommand env.cwd lua ((PRESET_MAP tier).getD "Strong") inP with hcmd
    set fs2 := (match env.exec.outWritten with
      | some o => fsWrite (fsWrite fs inP (codeText req.code)) outP o
      | none => fsWrite fs inP (codeText req.code)) with hfs2
    by_cases hx : env.exec.exitOk = true
    · rw [if_pos hx]
      cases hro : fs2 outP with
      | some obf =>
        have hb := tail_build
          [Event.writeAttempt true, Event.execCmd cmd, Event.readOutput true]
          env fs2 inP outP
          (by simp [List.pairwise_cons, phase])
          (by simp [phase])
          (by simp [List.countP_cons, isResolveEvent])
          (by simp [List.countP_cons, isReleaseEvent])
        exact ⟨_, by simp, hb.1, hb.2.1, hb.2.2.1, hb.2.2.2⟩
      | none =>
        have hb := tail_build
          [Event.writeAttempt true, Event.execCmd cmd, Event.readOutput false]
          env fs2 inP outP
          (by simp [List.pairwise_cons, phase])
          (by simp [phase])
          (by simp [List.countP_cons, isResolveEvent])
          (by simp [List.countP_cons, isReleaseEvent])
        exact ⟨_, by simp, hb.1, hb.2.1, hb.2.2.1, hb.2.2.2⟩
    · rw [if_neg hx]
      have hb := tail_build
        [Event.writeAttempt true, Event.execCmd cmd]
        env fs2 inP outP
        (by simp [List.pairwise_cons, phase])
        (by simp [phase])
        (by simp [List.countP_cons, isResolveEvent])
        (by simp [List.countP_cons, isReleaseEvent])
      exact ⟨_, by simp, hb.1, hb.2.1, hb.2.2.1, hb.2.2.2⟩
  · rw [if_neg hw]
    have hb := tail_build [Event.writeAttempt false] env fs
      (inputFileName env.cwd fileId) (outputFileName env.cwd fileId)
      (by simp [List.pairwise_cons, phase])
      (by simp [phase])
      (by simp [List.countP_cons, isResolveEvent])
      (by simp [List.countP_cons, isReleaseEvent])
    exact ⟨_, by simp, hb.1, hb.2.1, hb.2.2.1, hb.2.2.2⟩

/-- Branch reduction: an invalid source text short-circuits the handler. -/
theorem handle_invalid_eq (env : Env) (cache : Option String) (fs : FS)
    (fileId : String) (req : Request) (h : codeAccepted req.code = false) :
    handle env cache fs fileId req =
      { result := .err 400 "No code provided. Please enter Lua code to obfuscate.",
        fs := fs, cache := cache, events := [] } := by
  simp [handle, h]

/-- Branch reduction: with a populated cache no resolution happens and
the try/catch block runs directly. -/
theorem handle_valid_cached (env : Env) (lua : String) (fs : FS)
    (fileId : String) (req : Request) (h : codeAccepted req.code = true) :
    handle env (some lua) fs fileId req =
      runJob env (some lua) fs fileId req (validatedPreset req.preset) lua
        [Event.normalized (validatedPreset req.preset)] := by
  simp [handle, h]

/-- Branch reduction: with an empty cache and a successful resolution the
try/catch block runs with the freshly resolved path, which is cached. -/
theorem handle_valid_resolved (env : Env) (fs : FS) (fileId : String)
    (req : Request) (lua : String) (h : codeAccepted req.code = true)
    (hr : findLuaPath env.resolveEnv = .ok lua) :
    handle env none fs fileId req =
      runJob env (some lua) fs fileId req (validatedPreset req.preset) lua
        [Event.normalized (validatedPreset req.preset), Event.resolveAttempt true] := by
  simp [handle, h, hr]

/-- Branch reduction: with an empty cache and a failed resolution the
handler fails with the resolver's message, before any allocation. -/
theorem handle_valid_resolve_failed (env : Env) (fs : FS) (fileId : String)
    (req : Request) (m : String) (h : codeAccepted req.code = true)
    (hr : findLuaPath env.resolveEnv = .error m) :
    handle env none fs fileId req =
      { result := .err 500 m, fs := fs, cache := none,
        events := [Event.normalized (validatedPreset req.preset),
                   Event.resolveAttempt false] } := by
  simp [handle, h, hr]

/-- The try/catch block leaves neither scratch path behind when the
scratch paths start absent and no external deletion error is injected
for them. -/
theorem runJob_clean (env : Env) (cc : Option String) (fs : FS)
    (fileId : String) (req : Request) (tier lua : String) (evs : List Event)
    (hfi : env.unlinkFails (inputFileName env.cwd fileId) = false)
    (hfo : env.unlinkFails (outputFileName env.cwd fileId) = false)
    (hin : fsHas fs (inputFileName env.cwd fileId) = false)
    (hout : fsHas fs (outputFileName env.cwd fileId) = false) :
    fsHas (runJob env cc fs fileId req tier lua evs).fs
      (inputFileName env.cwd fileId) = false ∧
    fsHas (runJob env cc fs fileId req tier lua evs).fs
      (outputFileName env.cwd fileId) = false := by
  simp only [runJob]
  by_cases hw : env.writeOk = true
  · rw [if_pos hw]
    set inP := inputFileName env.cwd fileId with hinp
    set outP := outputFileName env.cwd fileId with houtp
    set fs2 := (match env.exec.outWritten with
      | some o => fsWrite (fsWrite fs inP (codeText req.code)) outP o
      | none => fsWrite fs inP (codeText req.code)) with hfs2
    have hfull : fsHas fs2 inP = true := by
      rw [hfs2]
      cases env.exec.outWritten with
      | some o => exact fsHas_write_mono _ _ _ _ (fsHas_write_self _ _ _)
      | none => exact fsHas_write_self _ _ _
    have himp : fsHas fs2 inP = false → fsHas fs2 outP = false := by
      intro hc
      rw [hfull] at hc
      cases hc
    by_cases hx : env.exec.exitOk = true
    · rw [if_pos hx]
      cases hro : fs2 outP with
      | some obf => exact cleanup_clean env fs2 inP outP hfi hfo himp
      | none => exact cleanup_clean env fs2 inP outP hfi hfo himp
    · rw [if_neg hx]
      exact cleanup_clean env fs2 inP outP hfi hfo himp
  · rw [if_neg hw]
    exact cleanup_clean env fs (inputFileName env.cwd fileId)
      (outputFileName env.cwd fileId) hfi hfo (fun _ => hout)

/-! ## Properties -/

/-- C2: tier normalization is total and pure: each of the four enumerated
tiers is accepted unchanged; any other candidate (including an absent
field) is silently replaced by the default tier `"Strong"`, which is the
second-strongest of the four; and the job never fails due to the tier
value alone — a request with an out-of-range tier behaves exactly like
the same request with the default tier. -/
theorem tier_normalization_total_and_defaulted :
    (∀ t, t ∈ VALID_PRESETS → validatedPreset (some t) = t) ∧
    (∀ s, s ∉ VALID_PRESETS → validatedPreset (some s) = "Strong") ∧
    validatedPreset none = "Strong" ∧
    VALID_PRESETS.get? (VALID_PRESETS.length - 2) = some "Strong" ∧
    (∀ env cache fs fileId c p, p ∉ VALID_PRESETS →
      handle env cache fs fileId ⟨c, some p⟩ =
        handle env cache fs fileId ⟨c, some "Strong"⟩) := by
  refine ⟨?_, ?_, rfl, rfl, ?_⟩
  · intro t ht
    fin_cases ht <;> rfl
  · intro s hs
    simp [validatedPreset, hs]
  · intro env cache fs fileId c p hp
    have hv : validatedPreset (some p) = "Strong" := by
      simp [validatedPreset, hp]
    have key : ∀ cc tier lua evs,
        runJob env cc fs fileId ⟨c, some p⟩ tier lua evs =
          runJob env cc fs fileId ⟨c, some "Strong"⟩ tier lua evs :=
      fun _ _ _ _ => rfl
    simp only [handle, hv]
    cases h : codeAccepted c with
    | false => simp
    | true =>
      simp only [if_true]
      cases cache with
      | some lua => exact key _ _ _ _
      | none =>
        cases findLuaPath env.resolveEnv with
        | ok lua => exact key _ _ _ _
        | error msg => rfl

/-- Witness for C2: `"Maximum"` is accepted unchanged; `"bogus"` falls
back to `"Strong"`; the whole handler treats the tier `"bogus"` exactly
like `"Strong"` on a concrete request. -/
theorem tier_normalization_total_and_defaulted_witness :
    validatedPreset (some "Maximum") = "Maximum" ∧
    validatedPreset (some "bogus") = "Strong" ∧
    handle env0 (some "lua") fs0 "job-1" ⟨.strVal "print(1)", some "bogus"⟩ =
      handle env0 (some "lua") fs0 "job-1" ⟨.strVal "print(1)", some "Strong"⟩ :=
  ⟨tier_normalization_total_and_defaulted.1 "Maximum" (by decide),
   tier_normalization_total_and_defaulted.2.1 "bogus" (by decide),
   tier_normalization_total_and_defaulted.2.2.2.2 env0 (some "lua") fs0 "job-1"
     (.strVal "print(1)") "bogus" (by decide)⟩

/-- C3: in the fixed tier-to-preset table, the two strongest tiers
(Strong and Maximum) map to the same tool preset, and the remaining two
tiers (Weak and Medium) are mapped one-to-one to distinct presets. -/
theorem preset_map_collapses_top_tiers :
    PRESET_MAP "Strong" = PRESET_MAP "Maximum" ∧
    PRESET_MAP "Weak" ≠ PRESET_MAP "Medium" ∧
    PRESET_MAP "Weak" = some "Weak" ∧
    PRESET_MAP "Medium" = some "Medium" ∧
    PRESET_MAP "Strong" = some "Strong" ∧
    PRESET_MAP "Maximum" = some "Strong" :=
  ⟨rfl, by decide, rfl, rfl, rfl, rfl⟩

/-- C4: a request whose source text is empty or not a string is rejected
immediately with a 400 failure result, with the filesystem untouched (no
input or output scratch file is created) and no pipeline step executed. -/
theorem invalid_input_rejected_before_allocation :
    codeAccepted (.strVal "") = false ∧
    (∀ b, codeAccepted (.nonString b) = false) ∧
    codeAccepted .missing = false ∧
    (∀ env cache fs fileId req, codeAccepted req.code = false →
      handle env cache fs fileId req =
        { result := .err 400 "No code provided. Please enter Lua code to obfuscate.",
          fs := fs, cache := cache, events := [] }) := by
  refine ⟨rfl, fun _ => rfl, rfl, ?_⟩
  intro env cache fs fileId req h
  simp [handle, h]

/-- Witness for C4 at the concrete empty-source request: rejected with
the 400 message, filesystem unchanged, no events. -/
theorem invalid_input_rejected_before_allocation_witness :
    codeAccepted (CodeField.strVal "") = false ∧
    handle env0 (some "lua") fs0 "job-1" ⟨.strVal "", some "Weak"⟩ =
      { result := .err 400 "No code provided. Please enter Lua code to obfuscate.",
        fs := fs0, cache := some "lua", events := [] } :=
  ⟨rfl, invalid_input_rejected_before_allocation.2.2.2 env0 (some "lua") fs0 "job-1"
    ⟨.strVal "", some "Weak"⟩ rfl⟩

/-- C8 counterexample: `ensureTempDir` does NOT propagate unrelated
filesystem errors — on a permission error it still returns success, so
"fails if and only if an unrelated filesystem error occurs" is false. -/
theorem ensureTempDir_swallows_unrelated_errors :
    ¬ (∀ r : Except FsError Unit,
        (ensureTempDir r = .ok ()) ↔ ¬ (∃ msg, r = .error (.other msg))) := by
  intro h
  have h2 := (h (.error (.other "EACCES: permission denied"))).1 rfl
  exact h2 ⟨"EACCES: permission denied", rfl⟩

/-- C8 amended: `ensureTempDir` is idempotent, but it treats every
`mkdir` outcome as success — "already exists" and unrelated filesystem
errors alike are swallowed, and no error is ever propagated. -/
theorem ensureTempDir_never_fails :
    (∀ r : Except FsError Unit, ensureTempDir r = .ok ()) ∧
    ensureTempDir (.error .alreadyExists) = .ok () ∧
    ensureTempDir (.ok ()) = .ok () :=
  ⟨fun r => by cases r with
    | ok u => cases u; rfl
    | error e => rfl,
   rfl, rfl⟩


/-- C1 counterexample: a job rejected for invalid input transitions into
the failure outcome, yet the workspace-release block runs zero times —
so release is not executed exactly once on every transition into a
terminal state. -/
theorem release_skipped_on_invalid_input :
    (handle env0 (some "lua") fs0 "job-4" ⟨.strVal "", some "Weak"⟩).result.isOk
      = false ∧
    releaseCount
      (handle env0 (some "lua") fs0 "job-4" ⟨.strVal "", some "Weak"⟩).events
      = 0 := by
  decide

/-- C1 (amended): release runs exactly once for every job that reaches
workspace allocation (valid input and an available interpreter) and zero
times for jobs rejected before allocation; in all cases, provided the
scratch paths start absent (fresh job id) and deletion fails only on
absence, both scratch paths are absent from the workspace when the
handler returns. -/
theorem workspace_release_once_after_allocation (env : Env)
    (cache : Option String) (fs : FS) (fileId : String) (req : Request)
    (hfi : env.unlinkFails (inputFileName env.cwd fileId) = false)
    (hfo : env.unlinkFails (outputFileName env.cwd fileId) = false)
    (hin : fsHas fs (inputFileName env.cwd fileId) = false)
    (hout : fsHas fs (outputFileName env.cwd fileId) = false) :
    releaseCount (handle env cache fs fileId req).events =
      (if codeAccepted req.code && interpreterAvailable cache env then 1 else 0) ∧
    fsHas (handle env cache fs fileId req).fs
      (inputFileName env.cwd fileId) = false ∧
    fsHas (handle env cache fs fileId req).fs
      (outputFileName env.cwd fileId) = false := by
  cases hca : codeAccepted req.code with
  | false =>
    rw [handle_invalid_eq env cache fs fileId req hca]
    simp [releaseCount, hin, hout]
  | true =>
    cases cache with
    | some lua =>
      rw [handle_valid_cached env lua fs fileId req hca]
      obtain ⟨tail, hev, _, _, _, hrel⟩ :=
        runJob_tail env (some lua) fs fileId req (validatedPreset req.preset) lua
          [Event.normalized (validatedPreset req.preset)]
      have hclean := runJob_clean env (some lua) fs fileId req
        (validatedPreset req.preset) lua
        [Event.normalized (validatedPreset req.preset)] hfi hfo hin hout
      refine ⟨?_, hclean.1, hclean.2⟩
      rw [hev]
      simp [releaseCount, List.countP_append, List.countP_cons, isReleaseEvent,
            hrel, interpreterAvailable]
    | none =>
      cases hfind : findLuaPath env.resolveEnv with
      | ok lua =>
        rw [handle_valid_resolved env fs fileId req lua hca hfind]
        obtain ⟨tail, hev, _, _, _, hrel⟩ :=
          runJob_tail env (some lua) fs fileId req (validatedPreset req.preset) lua
            [Event.normalized (validatedPreset req.preset), Event.resolveAttempt true]
        have hclean := runJob_clean env (some lua) fs fileId req
          (validatedPreset req.preset) lua
          [Event.normalized (validatedPreset req.preset), Event.resolveAttempt true]
          hfi hfo hin hout
        refine ⟨?_, hclean.1, hclean.2⟩
        rw [hev]
        simp [releaseCount, List.countP_append, List.countP_cons, isReleaseEvent,
              hrel, interpreterAvailable, hfind, Except.toOption]
      | error m =>
        rw [handle_valid_resolve_failed env fs fileId req m hca hfind]
        simp [releaseCount, List.countP_cons, isReleaseEvent,
              interpreterAvailable, hfind, hin, hout, Except.toOption]

/-- Witness for the amended C1 at a concrete successful job. -/
theorem workspace_release_once_after_allocation_witness :
    releaseCount
        (handle env0 (some "lua") fs0 "job-3" ⟨.strVal "x", some "Weak"⟩).events =
      (if codeAccepted (CodeField.strVal "x") &&
          interpreterAvailable (some "lua") env0 then 1 else 0) ∧
    fsHas (handle env0 (some "lua") fs0 "job-3" ⟨.strVal "x", some "Weak"⟩).fs
      (inputFileName env0.cwd "job-3") = false ∧
    fsHas (handle env0 (some "lua") fs0 "job-3" ⟨.strVal "x", some "Weak"⟩).fs
      (outputFileName env0.cwd "job-3") = false :=
  workspace_release_once_after_allocation env0 (some "lua") fs0 "job-3"
    ⟨.strVal "x", some "Weak"⟩ rfl rfl rfl rfl

/-- C5 counterexample: in a run whose interpreter resolution fails, no
workspace artifact has been allocated and release never runs — refuting
the claimed order (allocation before resolution) and the claimed release
on the resolution-failure path. -/
theorem allocation_not_before_resolution :
    ¬ (∀ env cache fs fileId req,
        Event.resolveAttempt false ∈ (handle env cache fs fileId req).events →
        Event.writeAttempt true ∈ (handle env cache fs fileId req).events ∧
        releaseCount (handle env cache fs fileId req).events = 1) := by
  intro h
  have h5 := h env0 none fs0 "job-5" ⟨.strVal "print(1)", some "Weak"⟩ (by decide)
  exact absurd h5.2 (by decide)

/-- C5 (amended): every trace is emitted in the code's pipeline order —
tier normalization, then interpreter resolution, then workspace
allocation (input write), then invocation, then output read, then
release; and when resolution fails nothing has been allocated, so
nothing is released and the filesystem is untouched. -/
theorem pipeline_steps_in_code_order (env : Env) (cache : Option String)
    (fs : FS) (fileId : String) (req : Request) :
    (handle env cache fs fileId req).events.Pairwise
      (fun a b => phase a ≤ phase b) ∧
    (∀ m, cache = none → findLuaPath env.resolveEnv = .error m →
      (handle env cache fs fileId req).events.countP isWriteEvent = 0 ∧
      execCmds (handle env cache fs fileId req).events = [] ∧
      releaseCount (handle env cache fs fileId req).events = 0 ∧
      (handle env cache fs fileId req).fs = fs) := by
  constructor
  · cases hca : codeAccepted req.code with
    | false => rw [handle_invalid_eq env cache fs fileId req hca]; simp
    | true =>
      cases cache with
      | some lua =>
        rw [handle_valid_cached env lua fs fileId req hca]
        obtain ⟨tail, hev, hp, hmem, _, _⟩ :=
          runJob_tail env (some lua) fs fileId req (validatedPreset req.preset) lua
            [Event.normalized (validatedPreset req.preset)]
        rw [hev, List.pairwise_append]
        refine ⟨by simp, hp, ?_⟩
        intro a ha b hb
        have h2 := hmem b hb
        simp at ha
        subst ha
        exact le_trans (by simp [phase]) h2
      | none =>
        cases hfind : findLuaPath env.resolveEnv with
        | ok lua =>
          rw [handle_valid_resolved env fs fileId req lua hca hfind]
          obtain ⟨tail, hev, hp, hmem, _, _⟩ :=
            runJob_tail env (some lua) fs fileId req (validatedPreset req.preset)
              lua [Event.normalized (validatedPreset req.preset),
                   Event.resolveAttempt true]
          rw [hev, List.pairwise_append]
          refine ⟨by simp [List.pairwise_cons, phase], hp, ?_⟩
          intro a ha b hb
          have h2 := hmem b hb
          simp at ha
          rcases ha with ha | ha <;> subst ha <;>
            exact le_trans (by simp [phase]) h2
        | error m =>
          rw [handle_valid_resolve_failed env fs fileId req m hca hfind]
          simp [List.pairwise_cons, phase]
  · intro m hcn hfind
    subst hcn
    cases hca : codeAccepted req.code with
    | false =>
      rw [handle_invalid_eq env none fs fileId req hca]
      simp [releaseCount, execCmds]
    | true =>
      rw [handle_valid_resolve_failed env fs fileId req m hca hfind]
      simp [releaseCount, execCmds, List.countP_cons, isWriteEvent, isReleaseEvent]

/-- Witness for the amended C5: a concrete successful run has a
phase-ordered trace, and a concrete resolution-failure run allocates and
releases nothing. -/
theorem pipeline_steps_in_code_order_witness :
    (handle env0 (some "lua") fs0 "job-7" ⟨.strVal "x", some "Weak"⟩).events.Pairwise
      (fun a b => phase a ≤ phase b) ∧
    ((handle env0 none fs0 "job-7" ⟨.strVal "x", some "Weak"⟩).events.countP
        isWriteEvent = 0 ∧
      execCmds (handle env0 none fs0 "job-7" ⟨.strVal "x", some "Weak"⟩).events = [] ∧
      releaseCount (handle env0 none fs0 "job-7" ⟨.strVal "x", some "Weak"⟩).events
        = 0 ∧
      (handle env0 none fs0 "job-7" ⟨.strVal "x", some "Weak"⟩).fs = fs0) :=
  ⟨(pipeline_steps_in_code_order env0 (some "lua") fs0 "job-7"
      ⟨.strVal "x", some "Weak"⟩).1,
   (pipeline_steps_in_code_order env0 none fs0 "job-7"
      ⟨.strVal "x", some "Weak"⟩).2 luaNotFoundMsg rfl rfl⟩


/-- A populated interpreter cache is preserved unchanged by every
request. -/
theorem handle_cache_some (env : Env) (p : String) (fs : FS) (fileId : String)
    (req : Request) : (handle env (some p) fs fileId req).cache = some p := by
  cases hca : codeAccepted req.code with
  | false => rw [handle_invalid_eq env (some p) fs fileId req hca]
  | true =>
    rw [handle_valid_cached env p fs fileId req hca]
    exact runJob_cache env (some p) fs fileId req (validatedPreset req.preset) p _

/-- A populated interpreter cache survives any batch of requests. -/
theorem runBatchCache_some (p : String)
    (batch : List (Env × FS × String × Request)) :
    runBatchCache (some p) batch = some p := by
  induction batch with
  | nil => rfl
  | cons item rest ih =>
    simp only [runBatchCache, List.foldl_cons]
    rw [handle_cache_some]
    simpa [runBatchCache] using ih

/-- C7: the interpreter cache lifecycle — empty at process start;
populated by a successful startup probe and left empty by a failed one;
once populated it is preserved and no request ever re-resolves (no
resolution event), across whole batches of requests; while empty, each
accepted request attempts resolution: success stores the resolved path in
the cache, failure leaves the cache empty and fails that request with the
resolver's message (so the next request will retry). -/
theorem interpreter_cache_lifecycle :
    initialCache = none ∧
    (∀ renv lua, findLuaPath renv = .ok lua → startupCache renv = some lua) ∧
    (∀ renv m, findLuaPath renv = .error m → startupCache renv = none) ∧
    (∀ env p fs fileId req,
      (handle env (some p) fs fileId req).cache = some p ∧
      (handle env (some p) fs fileId req).events.countP isResolveEvent = 0) ∧
    (∀ p batch, runBatchCache (some p) batch = some p) ∧
    (∀ env fs fileId req, codeAccepted req.code = true →
      (∀ lua, findLuaPath env.resolveEnv = .ok lua →
        (handle env none fs fileId req).cache = some lua ∧
        Event.resolveAttempt true ∈ (handle env none fs fileId req).events) ∧
      (∀ m, findLuaPath env.resolveEnv = .error m →
        (handle env none fs fileId req).cache = none ∧
        (handle env none fs fileId req).result = .err 500 m ∧
        Event.resolveAttempt false ∈ (handle env none fs fileId req).events)) := by
  refine ⟨rfl, ?_, ?_, ?_, ?_, ?_⟩
  · intro renv lua h
    simp [startupCache, h]
  · intro renv m h
    simp [startupCache, h]
  · intro env p fs fileId req
    refine ⟨handle_cache_some env p fs fileId req, ?_⟩
    cases hca : codeAccepted req.code with
    | false =>
      rw [handle_invalid_eq env (some p) fs fileId req hca]
      simp
    | true =>
      rw [handle_valid_cached env p fs fileId req hca]
      obtain ⟨tail, hev, _, _, hres, _⟩ :=
        runJob_tail env (some p) fs fileId req (validatedPreset req.preset) p
          [Event.normalized (validatedPreset req.preset)]
      rw [hev]
      simp [List.countP_append, List.countP_cons, isResolveEvent, hres]
  · exact fun p batch => runBatchCache_some p batch
  · intro env fs fileId req hca
    constructor
    · intro lua hr
      rw [handle_valid_resolved env fs fileId req lua hca hr]
      obtain ⟨tail, hev, _, _, _, _⟩ :=
        runJob_tail env (some lua) fs fileId req (validatedPreset req.preset) lua
          [Event.normalized (validatedPreset req.preset), Event.resolveAttempt true]
      refine ⟨runJob_cache env (some lua) fs fileId req (validatedPreset req.preset)
        lua _, ?_⟩
      rw [hev]
      simp
    · intro m hr
      rw [handle_valid_resolve_failed env fs fileId req m hca hr]
      simp

/-- Witness for C7 at concrete inputs: a successful probe populates the
startup cache; a populated cache is preserved by a request and by a
batch; a failed per-request resolution leaves the cache empty. -/
theorem interpreter_cache_lifecycle_witness :
    startupCache renv1 = some "lua" ∧
    (handle env0 (some "lua") fs0 "job-8" ⟨.strVal "x", some "Weak"⟩).cache
      = some "lua" ∧
    runBatchCache (some "lua")
      [(env0, fs0, "job-9", ⟨.strVal "x", none⟩)] = some "lua" ∧
    (handle env0 none fs0 "job-8" ⟨.strVal "x", some "Weak"⟩).cache = none :=
  ⟨interpreter_cache_lifecycle.2.1 renv1 "lua" rfl,
   (interpreter_cache_lifecycle.2.2.2.1 env0 "lua" fs0 "job-8"
      ⟨.strVal "x", some "Weak"⟩).1,
   interpreter_cache_lifecycle.2.2.2.2.1 "lua"
      [(env0, fs0, "job-9", ⟨.strVal "x", none⟩)],
   ((interpreter_cache_lifecycle.2.2.2.2.2 env0 fs0 "job-8"
      ⟨.strVal "x", some "Weak"⟩ rfl).2 luaNotFoundMsg rfl).1⟩


/-- The try/catch block's result does not depend on which deletions
fail: cleanup only affects the filesystem and the trace. -/
theorem runJob_result_ignores_unlink (cwd : String) (renv : ResolveEnv)
    (wOk : Bool) (wMsg : String) (ex : ExecOutcome) (f g : String → Bool)
    (cc : Option String) (fs : FS) (fileId : String) (req : Request)
    (tier lua : String) (evs : List Event) :
    (runJob (Env.mk cwd renv wOk wMsg ex f) cc fs fileId req tier lua evs).result =
    (runJob (Env.mk cwd renv wOk wMsg ex g) cc fs fileId req tier lua evs).result := by
  simp only [runJob]
  cases wOk with
  | false => rfl
  | true =>
    cases hx : ex.exitOk with
    | false =>
      simp only [hx]
      rfl
    | true =>
      simp only [hx]
      cases hro : (match ex.outWritten with
        | some o => fsWrite (fsWrite fs (inputFileName cwd fileId)
            (codeText req.code)) (outputFileName cwd fileId) o
        | none => fsWrite fs (inputFileName cwd fileId) (codeText req.code))
          (outputFileName cwd fileId) with
      | some obf => simp [hro]
      | none => simp [hro]

/-- The handler's result does not depend on which deletions fail. -/
theorem handle_result_ignores_unlink (env : Env) (cache : Option String)
    (fs : FS) (fileId : String) (req : Request) (f g : String → Bool) :
    (handle { env with unlinkFails := f } cache fs fileId req).result =
    (handle { env with unlinkFails := g } cache fs fileId req).result := by
  obtain ⟨cwd, renv, wOk, wMsg, ex, uf⟩ := env
  cases hca : codeAccepted req.code with
  | false =>
    rw [handle_invalid_eq _ _ _ _ _ hca, handle_invalid_eq _ _ _ _ _ hca]
  | true =>
    cases cache with
    | some lua =>
      rw [handle_valid_cached _ _ _ _ _ hca, handle_valid_cached _ _ _ _ _ hca]
      exact runJob_result_ignores_unlink cwd renv wOk wMsg ex f g _ _ _ _ _ _ _
    | none =>
      cases hr : findLuaPath renv with
      | ok lua =>
        rw [handle_valid_resolved _ _ _ _ lua hca hr,
            handle_valid_resolved _ _ _ _ lua hca hr]
        exact runJob_result_ignores_unlink cwd renv wOk wMsg ex f g _ _ _ _ _ _ _
      | error m =>
        rw [handle_valid_resolve_failed _ _ _ _ m hca hr,
            handle_valid_resolve_failed _ _ _ _ m hca hr]

/-- C6 counterexample: in a run where deleting the input path fails, the
deletion of the output path is never attempted, so "a failure to delete
one path does not prevent the attempt to delete the other" is false. -/
theorem second_unlink_skipped :
    ¬ (∀ env cache fs fileId req,
        Event.release ∈ (handle env cache fs fileId req).events →
        1 ≤ unlinkAttemptsOn (outputFileName env.cwd fileId)
              (handle env cache fs fileId req).events) := by
  intro h
  have h6 := h env1 (some "lua") fs0 "job-6" ⟨.strVal "print(1)", some "Weak"⟩
    (by decide)
  exact absurd h6 (by decide)

/-- C6 (amended): release is best-effort and non-fatal — the job's
result never depends on deletion errors, which are swallowed — but it is
sequential, not independent: the input deletion is always attempted
first, and the output deletion is attempted exactly when the input
deletion succeeded (a failed input unlink, including mere absence, skips
the output unlink attempt). -/
theorem release_nonfatal_but_sequential :
    (∀ (env : Env) (cache : Option String) (fs : FS) (fileId : String)
        (req : Request) (f g : String → Bool),
      (handle { env with unlinkFails := f } cache fs fileId req).result =
      (handle { env with unlinkFails := g } cache fs fileId req).result) ∧
    (∀ env fs inP outP,
      (cleanup env fs inP outP).2 = [Event.release, Event.unlinkAttempt inP false] ∨
      (cleanup env fs inP outP).2 =
        [Event.release, Event.unlinkAttempt inP true,
         Event.unlinkAttempt outP false] ∨
      (cleanup env fs inP outP).2 =
        [Event.release, Event.unlinkAttempt inP true,
         Event.unlinkAttempt outP true]) :=
  ⟨fun env cache fs fileId req f g =>
      handle_result_ignores_unlink env cache fs fileId req f g,
   cleanup_shapes⟩

/-- On a fully successful run the try/catch block returns the text the
tool wrote, tagged with the tier it was given. -/
theorem runJob_success_result (env : Env) (cc : Option String) (fs : FS)
    (fileId : String) (req : Request) (tier lua : String) (evs : List Event)
    (t : String) (hw : env.writeOk = true) (hx : env.exec.exitOk = true)
    (ho : env.exec.outWritten = some t) :
    (runJob env cc fs fileId req tier lua evs).result = .ok t tier := by
  simp [runJob, hw, hx, ho, fsWrite]

/-- C9: for every non-empty source text and each enumerated tier, a
successful run (input written, tool exited zero having written a
non-empty output text `t`) returns exactly `t`, and the tier-used field
equals the normalized caller-facing tier — not the tool's native
preset. -/
theorem success_reports_normalized_tier (env : Env) (fs : FS)
    (fileId s p lua t : String) (hs : s ≠ "") (hp : p ∈ VALID_PRESETS)
    (hw : env.writeOk = true) (hx : env.exec.exitOk = true)
    (ho : env.exec.outWritten = some t) (ht : t ≠ "") :
    (handle env (some lua) fs fileId ⟨.strVal s, some p⟩).result = .ok t p ∧
    t ≠ "" ∧ validatedPreset (some p) = p := by
  have hvp : validatedPreset (some p) = p := by
    fin_cases hp <;> rfl
  have hca : codeAccepted (CodeField.strVal s) = true := by
    simp [codeAccepted, hs]
  refine ⟨?_, ht, hvp⟩
  rw [handle_valid_cached env lua fs fileId ⟨.strVal s, some p⟩ hca]
  rw [runJob_success_result env (some lua) fs fileId _ _ lua _ t hw hx ho]
  rw [hvp]

/-- Witness for C9: a concrete Maximum job succeeds, reports tier
`"Maximum"`, while the tool preset actually used is `"Strong"`. -/
theorem success_reports_normalized_tier_witness :
    ((handle env0 (some "lua") fs0 "job-10"
        ⟨.strVal "print(1)", some "Maximum"⟩).result = .ok "obf" "Maximum" ∧
      ("obf" : String) ≠ "" ∧ validatedPreset (some "Maximum") = "Maximum") ∧
    actualPresetOf (some "Maximum") = "Strong" :=
  ⟨success_reports_normalized_tier env0 fs0 "job-10" "print(1)" "Maximum" "lua"
      "obf" (by decide) (by decide) rfl rfl rfl (by decide),
   rfl⟩


/-- The command trace of the try/catch block: exactly one command —
built from the interpreter path, the fixed preset table and the job's
input path — when the input write succeeded, none otherwise; in either
case independent of the source text. -/
theorem runJob_execCmds (env : Env) (cc : Option String) (fs : FS)
    (fileId : String) (req : Request) (tier lua : String) (evs : List Event) :
    execCmds (runJob env cc fs fileId req tier lua evs).events =
      execCmds evs ++ (if env.writeOk = true then
        [buildCommand env.cwd lua ((PRESET_MAP tier).getD "Strong")
          (inputFileName env.cwd fileId)] else []) := by
  simp only [runJob]
  by_cases hw : env.writeOk = true
  · rw [if_pos hw, if_pos hw]
    set fs2 := (match env.exec.outWritten with
      | some o => fsWrite (fsWrite fs (inputFileName env.cwd fileId)
          (codeText req.code)) (outputFileName env.cwd fileId) o
      | none => fsWrite fs (inputFileName env.cwd fileId) (codeText req.code))
      with hfs2
    by_cases hx : env.exec.exitOk = true
    · rw [if_pos hx]
      cases hro : fs2 (outputFileName env.cwd fileId) with
      | some obf =>
        rcases cleanup_shapes env fs2 (inputFileName env.cwd fileId)
            (outputFileName env.cwd fileId) with h | h | h <;>
          rw [h] <;> simp [execCmds, List.filterMap_append]
      | none =>
        rcases cleanup_shapes env fs2 (inputFileName env.cwd fileId)
            (outputFileName env.cwd fileId) with h | h | h <;>
          rw [h] <;> simp [execCmds, List.filterMap_append]
    · rw [if_neg hx]
      rcases cleanup_shapes env fs2 (inputFileName env.cwd fileId)
          (outputFileName env.cwd fileId) with h | h | h <;>
        rw [h] <;> simp [execCmds, List.filterMap_append]
  · rw [if_neg hw, if_neg hw]
    rcases cleanup_shapes env fs (inputFileName env.cwd fileId)
        (outputFileName env.cwd fileId) with h | h | h <;>
      rw [h] <;> simp [execCmds, List.filterMap_append]

/-- The preset interpolated into the command is always an entry of the
fixed preset table, never raw request input. -/
theorem actualPresetOf_mem (p : Option String) :
    actualPresetOf p ∈ ["Weak", "Medium", "Strong"] := by
  simp only [actualPresetOf, validatedPreset]
  by_cases h : VALID_PRESETS.contains (p.getD "Strong") = true
  · rw [if_pos h]
    have hm : p.getD "Strong" ∈ VALID_PRESETS := by simpa using h
    simp only [VALID_PRESETS, List.mem_cons, List.mem_singleton,
      List.not_mem_nil, or_false] at hm
    rcases hm with hm | hm | hm | hm <;> rw [hm] <;> decide
  · rw [if_neg h]
    decide

/-- C10: the executed subprocess command is independent of the source
text — two accepted requests sharing job id, cache state, environment and
tier but differing in code produce identical command traces — every
executed command is built from the resolved interpreter, the fixed preset
table and the job's input path, and the interpolated preset is always a
value of the fixed table. -/
theorem command_ignores_source_text (env : Env) (cache : Option String)
    (fs : FS) (fileId : String) (p : Option String) (c1 c2 : String)
    (h1 : c1 ≠ "") (h2 : c2 ≠ "") :
    execCmds (handle env cache fs fileId ⟨.strVal c1, p⟩).events =
      execCmds (handle env cache fs fileId ⟨.strVal c2, p⟩).events ∧
    (∀ cmd ∈ execCmds (handle env cache fs fileId ⟨.strVal c1, p⟩).events,
      ∃ lua, cmd = buildCommand env.cwd lua (actualPresetOf p)
        (inputFileName env.cwd fileId)) ∧
    actualPresetOf p ∈ ["Weak", "Medium", "Strong"] := by
  have hca1 : codeAccepted (CodeField.strVal c1) = true := by
    simp [codeAccepted, h1]
  have hca2 : codeAccepted (CodeField.strVal c2) = true := by
    simp [codeAccepted, h2]
  refine ⟨?_, ?_, actualPresetOf_mem p⟩
  · cases cache with
    | some lua =>
      rw [handle_valid_cached _ _ _ _ _ hca1, handle_valid_cached _ _ _ _ _ hca2]
      rw [runJob_execCmds, runJob_execCmds]
    | none =>
      cases hr : findLuaPath env.resolveEnv with
      | ok lua =>
        rw [handle_valid_resolved _ _ _ _ lua hca1 hr,
            handle_valid_resolved _ _ _ _ lua hca2 hr]
        rw [runJob_execCmds, runJob_execCmds]
      | error m =>
        rw [handle_valid_resolve_failed _ _ _ _ m hca1 hr,
            handle_valid_resolve_failed _ _ _ _ m hca2 hr]
  · cases cache with
    | some lua =>
      rw [handle_valid_cached _ _ _ _ _ hca1, runJob_execCmds]
      intro cmd hcmd
      simp only [execCmds, List.filterMap_cons, List.filterMap_nil,
        List.nil_append] at hcmd
      split at hcmd
      · simp at hcmd
        exact ⟨lua, hcmd⟩
      · simp at hcmd
    | none =>
      cases hr : findLuaPath env.resolveEnv with
      | ok lua =>
        rw [handle_valid_resolved _ _ _ _ lua hca1 hr, runJob_execCmds]
        intro cmd hcmd
        simp only [execCmds, List.filterMap_cons, List.filterMap_nil,
          List.nil_append] at hcmd
        split at hcmd
        · simp at hcmd
          exact ⟨lua, hcmd⟩
        · simp at hcmd
      | error m =>
        rw [handle_valid_resolve_failed _ _ _ _ m hca1 hr]
        intro cmd hcmd
        simp [execCmds] at hcmd

/-- Witness for C10: two concrete requests differing only in source text
produce identical command traces; the interpolated preset for a Maximum
request is a table value. -/
theorem command_ignores_source_text_witness :
    (execCmds (handle env0 (some "lua") fs0 "job-11"
        ⟨.strVal "print(1)", some "Maximum"⟩).events =
      execCmds (handle env0 (some "lua") fs0 "job-11"
        ⟨.strVal "while true do end", some "Maximum"⟩).events) ∧
    (∀ cmd ∈ execCmds (handle env0 (some "lua") fs0 "job-11"
        ⟨.strVal "print(1)", some "Maximum"⟩).events,
      ∃ lua, cmd = buildCommand env0.cwd lua (actualPresetOf (some "Maximum"))
        (inputFileName env0.cwd "job-11")) ∧
    actualPresetOf (some "Maximum") ∈ ["Weak", "Medium", "Strong"] :=
  command_ignores_source_text env0 (some "lua") fs0 "job-11" (some "Maximum")
    "print(1)" "while true do end" (by decide) (by decide)

end Avestix
